import Mathlib

/-!
A shallow embedding of `src/signaling-server.js`, the Socket.io call-signaling
server.  The three mutable tables of the source — `users` (role → socket id,
line 21), `activeCallSessions` (session id → record, line 29) and the
per-socket fields `socket.role` (line 62) / `socket.sessionId` (line 83) —
become association lists inside one `ServerState`.  Each `socket.on(...)`
handler becomes a pure function from state, sending-socket id and the event
payload to a new state together with the list of messages emitted through
`io.to(...).emit(...)`.

Modelling notes, each tied to the source:
* Socket.io socket ids are non-empty random strings, hence always truthy in
  JavaScript; the truthiness tests on table *values* — `if (users[to])`
  (lines 70, 95, 117, 129), `if (users[from])` (lines 179, 216) — are
  therefore modelled as key-presence tests.
* A generated session id `from + "_" + to + "_" + Date.now()` (line 81) is a
  non-empty string, hence truthy; `if (sessionId && ...)` (lines 106, 138,
  149, 187) is modelled as the socket having a `sessionId` field at all.
* `socket.role` is a client-supplied string, so the disconnect guard
  `if (socket.role && users[socket.role] === socket.id)` (line 225) is falsy
  for the empty string; the model keeps that truthiness test exactly.
* `Date.now()` is modelled as a `now : Nat` parameter of the `call` event.
* The control-plane calls to the media relay (the `fetch(...)` requests in
  the recording and disconnect handlers) appear in the source only as
  commented-out pseudo-code, so no handler ever produces the `ctrl...`
  effects; the constructors exist so that their absence is expressible.
* `console.log` / `console.warn` output is not modelled (logging is
  plumbing; the warning of the recording guard has no other effect).
* The `for (const sessionId in activeCallSessions)` loop of the disconnect
  handler (lines 229-236) deletes every session whose `from` or `to` equals
  the disconnecting role; its net effect on the table is a filter.
-/

namespace Signaling

/-- One call-session record: `activeCallSessions[sessionId] =
{ from, to, status }` (source line 82).  The JS field names `from` / `to`
clash with Lean keywords, so they are `fromId` / `toId` here; `status` is
the literal string the source stores (`'calling'` or `'connected'`). -/
structure CallSession where
  fromId : String
  toId : String
  status : String
deriving Repr, DecidableEq

/-- Observable effects of one handler run: the messages emitted via
`io.to(dest).emit(...)`, plus the three control-plane calls of the
media-relay interface, which the source sketches only inside comments and
therefore never issues. -/
inductive Eff where
  | incomingCall (dest fromId offer : String)
  | callSessionInfo (dest sessionId : String)
  | callAnswered (dest fromId answerSdp : String)
  | iceCandidateMsg (dest fromId candidate : String)
  | callEnded (dest fromId : String)
  | startRecordingSignal (dest fromId : String)
  | stopRecordingSignal (dest fromId : String)
  | ctrlStartRecording (sessionId : String)
  | ctrlStopRecording (sessionId : String)
  | ctrlTerminateSession (sessionId : String)
deriving Repr, DecidableEq

/-- The inbound events of the server, one constructor per
`socket.on(...)` handler.  `Date.now()` at the moment a `call` event is
processed is passed as the `now` field. -/
inductive Event where
  | register (role : String)
  | call (fromId toId offer : String) (now : Nat)
  | answer (fromId toId answerSdp : String)
  | iceCandidate (fromId toId candidate : String)
  | endCall (fromId toId : String)
  | startRecordingRequest (fromId toId : String)
  | stopRecordingRequest (fromId toId : String)
  | disconnect
deriving Repr, DecidableEq

/-- The whole mutable state of the server process: the `users` object, the
`activeCallSessions` object, and the per-socket fields `socket.role` and
`socket.sessionId` gathered into two maps keyed by socket id. -/
structure ServerState where
  users : List (String × String)
  sessions : List (String × CallSession)
  socketRole : List (String × String)
  socketSession : List (String × String)
deriving Repr, DecidableEq

/-- Property read of a JS object: value at key `k`, `none` when absent. -/
def alookup {α : Type} (k : String) : List (String × α) → Option α
  | [] => none
  | (k', v) :: rest => if k' = k then some v else alookup k rest

/-- Property write of a JS object: `obj[k] = v` replaces an existing entry
in place and otherwise appends (JS objects keep insertion order). -/
def upsert {α : Type} (k : String) (v : α) : List (String × α) → List (String × α)
  | [] => [(k, v)]
  | (k', v') :: rest => if k' = k then (k, v) :: rest else (k', v') :: upsert k v rest

/-- `delete obj[k]`: removes the entry at key `k`. -/
def aerase {α : Type} (k : String) : List (String × α) → List (String × α)
  | [] => []
  | (k', v) :: rest => if k' = k then rest else (k', v) :: aerase k rest

/-- The keys of a JS object, in order. -/
def keysOf {α : Type} (l : List (String × α)) : List String := l.map Prod.fst

/-- Session-id generation of the `call` handler (line 81):
`const sessionId = from + "_" + to + "_" + Date.now()`. -/
def sessionIdOf (fromId toId : String) (now : Nat) : String :=
  fromId ++ "_" ++ toId ++ "_" ++ toString now

/-- `socket.on('register', ...)` (lines 60-64): store `users[role] =
socket.id` and `socket.role = role`; emits nothing. -/
def handleRegister (st : ServerState) (sid role : String) : ServerState × List Eff :=
  ({ st with users := upsert role sid st.users,
             socketRole := upsert sid role st.socketRole }, [])

/-- `socket.on('call', ...)` (lines 67-89): if the target is registered,
relay the offer as `incoming-call`, create the session record with status
`'calling'`, link the *sending* socket to the new session id, and send the
id to the target as `call-session-info`; otherwise do nothing. -/
def handleCall (st : ServerState) (sid fromId toId offer : String) (now : Nat) :
    ServerState × List Eff :=
  match alookup toId st.users with
  | some dest =>
      let s := sessionIdOf fromId toId now
      ({ st with sessions := upsert s ⟨fromId, toId, "calling"⟩ st.sessions,
                 socketSession := upsert sid s st.socketSession },
       [Eff.incomingCall dest fromId offer, Eff.callSessionInfo dest s])
  | none => (st, [])

/-- `socket.on('answer', ...)` (lines 92-111): if the target is registered,
relay the answer as `call-answered`; then, if the *sending* socket carries a
session id that is present in the table, set that session's status to
`'connected'`. -/
def handleAnswer (st : ServerState) (sid fromId toId answerSdp : String) :
    ServerState × List Eff :=
  match alookup toId st.users with
  | some dest =>
      let st' :=
        match alookup sid st.socketSession with
        | some s =>
            match alookup s st.sessions with
            | some sess =>
                { st with sessions := upsert s { sess with status := "connected" } st.sessions }
            | none => st
        | none => st
      (st', [Eff.callAnswered dest fromId answerSdp])
  | none => (st, [])

/-- `socket.on('ice-candidate', ...)` (lines 114-125): pure relay to the
target when registered; no state change. -/
def handleIceCandidate (st : ServerState) (fromId toId candidate : String) :
    ServerState × List Eff :=
  match alookup toId st.users with
  | some dest => (st, [Eff.iceCandidateMsg dest fromId candidate])
  | none => (st, [])

/-- `socket.on('end-call', ...)` (lines 128-143): if the target is
registered, relay `call-ended`, and, still inside that branch, delete the
session carried by the *sending* socket when it is present in the table. -/
def handleEndCall (st : ServerState) (sid fromId toId : String) : ServerState × List Eff :=
  match alookup toId st.users with
  | some dest =>
      let st' :=
        match alookup sid st.socketSession with
        | some s =>
            if (alookup s st.sessions).isSome then
              { st with sessions := aerase s st.sessions }
            else st
        | none => st
      (st', [Eff.callEnded dest fromId])
  | none => (st, [])

/-- `socket.on('start-recording-request', ...)` (lines 147-181): if the
sending socket carries no session id, or a session id absent from the
table, warn and return; otherwise emit `start-recording-signal` to
`users[from]` and to `users[to]`, each only when present.  The media-relay
control call is commented out in the source, so none is issued. -/
def handleStartRecording (st : ServerState) (sid fromId toId : String) :
    ServerState × List Eff :=
  match alookup sid st.socketSession with
  | some s =>
      if (alookup s st.sessions).isSome then
        (st,
          (match alookup fromId st.users with
           | some d => [Eff.startRecordingSignal d fromId]
           | none => [])
          ++ (match alookup toId st.users with
              | some d => [Eff.startRecordingSignal d fromId]
              | none => []))
      else (st, [])
  | none => (st, [])

/-- `socket.on('stop-recording-request', ...)` (lines 185-218): same shape
as the start-recording handler, emitting `stop-recording-signal`. -/
def handleStopRecording (st : ServerState) (sid fromId toId : String) :
    ServerState × List Eff :=
  match alookup sid st.socketSession with
  | some s =>
      if (alookup s st.sessions).isSome then
        (st,
          (match alookup fromId st.users with
           | some d => [Eff.stopRecordingSignal d fromId]
           | none => [])
          ++ (match alookup toId st.users with
              | some d => [Eff.stopRecordingSignal d fromId]
              | none => []))
      else (st, [])
  | none => (st, [])

/-- `socket.on('disconnect', ...)` (lines 222-238): only when the socket
has a truthy role *and* `users[role]` is still this very socket id, delete
the presence entry and every session whose `from` or `to` equals that
role.  Otherwise nothing at all happens. -/
def handleDisconnect (st : ServerState) (sid : String) : ServerState × List Eff :=
  match alookup sid st.socketRole with
  | some role =>
      if role ≠ "" ∧ alookup role st.users = some sid then
        ({ st with users := aerase role st.users,
                   sessions := st.sessions.filter
                     (fun p => !(p.2.fromId == role || p.2.toId == role)) }, [])
      else (st, [])
  | none => (st, [])

/-- Dispatch of one inbound event arriving on socket `sid`, exactly the
`io.on('connection', ...)` handler table. -/
def step (st : ServerState) (sid : String) : Event → ServerState × List Eff
  | .register role => handleRegister st sid role
  | .call f t o now => handleCall st sid f t o now
  | .answer f t a => handleAnswer st sid f t a
  | .iceCandidate f t c => handleIceCandidate st f t c
  | .endCall f t => handleEndCall st sid f t
  | .startRecordingRequest f t => handleStartRecording st sid f t
  | .stopRecordingRequest f t => handleStopRecording st sid f t
  | .disconnect => handleDisconnect st sid

/-- The empty state at process start. -/
def initialState : ServerState := ⟨[], [], [], []⟩

/-- Run a trace of (socket id, event) pairs, keeping only the state. -/
def runState (st : ServerState) : List (String × Event) → ServerState
  | [] => st
  | (sid, ev) :: rest => runState (step st sid ev).1 rest

/-- Every session record in the table carries one of the two statuses the
source ever writes. -/
def StatusesValid (l : List (String × CallSession)) : Prop :=
  ∀ p ∈ l, p.2.status = "calling" ∨ p.2.status = "connected"

/-- The state reached by: register `A` on socket `s1`, register `B` on
socket `s2`, then a call from `A` to `B` processed at millisecond 7 — the
standard two-party mid-call state (it equals the corresponding `runState`
trace). -/
def midCallState : ServerState :=
  ⟨[("A", "s1"), ("B", "s2")],
   [("A_B_7", ⟨"A", "B", "calling"⟩)],
   [("s1", "A"), ("s2", "B")],
   [("s1", "A_B_7")]⟩

/-- `midCallState` after the session has been removed while the initiator
socket still carries the stale session id. -/
def endedCallState : ServerState :=
  ⟨[("A", "s1"), ("B", "s2")],
   [],
   [("s1", "A"), ("s2", "B")],
   [("s1", "A_B_7")]⟩

/-- A state in which identity `A` has been re-registered on socket `s9`
while socket `s1` still carries role `A`. -/
def staleRoleState : ServerState :=
  ⟨[("A", "s9")], [], [("s1", "A")], []⟩

/-- Both parties registered, no session yet: the state one call event
short of `midCallState`. -/
def bothRegisteredState : ServerState :=
  ⟨[("A", "s1"), ("B", "s2")], [], [("s1", "A"), ("s2", "B")], []⟩

theorem alookup_upsert_self {α : Type} (k : String) (v : α) (l : List (String × α)) :
    alookup k (upsert k v l) = some v := by
  induction l with
  | nil => simp [upsert, alookup]
  | cons p rest ih =>
      obtain ⟨k', v'⟩ := p
      by_cases h : k' = k
      · simp [upsert, alookup, h]
      · simp [upsert, alookup, h, ih]

theorem alookup_upsert_of_ne {α : Type} {k k' : String} (h : k' ≠ k) (v : α)
    (l : List (String × α)) : alookup k' (upsert k v l) = alookup k' l := by
  induction l with
  | nil => simp [upsert, alookup, Ne.symm h]
  | cons p rest ih =>
      obtain ⟨k0, v0⟩ := p
      by_cases h0 : k0 = k
      · subst h0
        simp [upsert, alookup, Ne.symm h]
      · simp only [upsert, if_neg h0, alookup]
        split
        · rfl
        · exact ih

theorem upsert_of_alookup_none {α : Type} {k : String} {l : List (String × α)}
    (h : alookup k l = none) (v : α) : upsert k v l = l ++ [(k, v)] := by
  induction l with
  | nil => simp [upsert]
  | cons p rest ih =>
      obtain ⟨k0, v0⟩ := p
      by_cases h0 : k0 = k
      · simp [alookup, h0] at h
      · simp only [alookup, if_neg h0] at h
        simp [upsert, h0, ih h]

theorem length_upsert_of_none {α : Type} {k : String} {l : List (String × α)}
    (h : alookup k l = none) (v : α) : (upsert k v l).length = l.length + 1 := by
  rw [upsert_of_alookup_none h]
  simp

theorem length_upsert_of_some {α : Type} {k : String} {v : α} {l : List (String × α)}
    (h : alookup k l = some v) (v' : α) : (upsert k v' l).length = l.length := by
  induction l with
  | nil => simp [alookup] at h
  | cons q rest ih =>
      obtain ⟨k0, v0⟩ := q
      by_cases h0 : k0 = k
      · rw [upsert, if_pos h0]
        simp
      · rw [alookup, if_neg h0] at h
        rw [upsert, if_neg h0]
        simp [ih h]

theorem mem_upsert {α : Type} {k : String} {v : α} {l : List (String × α)}
    {p : String × α} (h : p ∈ upsert k v l) : p = (k, v) ∨ p ∈ l := by
  induction l with
  | nil => simpa [upsert] using h
  | cons q rest ih =>
      obtain ⟨k0, v0⟩ := q
      by_cases h0 : k0 = k
      · rw [upsert, if_pos h0] at h
        rcases List.mem_cons.mp h with h | h
        · exact Or.inl h
        · exact Or.inr (List.mem_cons_of_mem _ h)
      · rw [upsert, if_neg h0] at h
        rcases List.mem_cons.mp h with h | h
        · exact Or.inr (List.mem_cons.mpr (Or.inl h))
        · rcases ih h with h' | h'
          · exact Or.inl h'
          · exact Or.inr (List.mem_cons_of_mem _ h')

theorem aerase_sublist {α : Type} (k : String) (l : List (String × α)) :
    (aerase k l).Sublist l := by
  induction l with
  | nil => simp [aerase]
  | cons q rest ih =>
      obtain ⟨k0, v0⟩ := q
      by_cases h0 : k0 = k
      · rw [aerase, if_pos h0]
        exact List.sublist_cons_self _ _
      · rw [aerase, if_neg h0]
        exact ih.cons₂ _

theorem alookup_eq_none_of_not_mem {α : Type} {k : String} {l : List (String × α)}
    (h : k ∉ keysOf l) : alookup k l = none := by
  induction l with
  | nil => rfl
  | cons q rest ih =>
      obtain ⟨k0, v0⟩ := q
      simp only [keysOf, List.map_cons, List.mem_cons] at h
      push_neg at h
      rw [alookup, if_neg (fun e => h.1 e.symm)]
      exact ih h.2

theorem mem_of_alookup {α : Type} {k : String} {v : α} {l : List (String × α)}
    (h : alookup k l = some v) : (k, v) ∈ l := by
  induction l with
  | nil => simp [alookup] at h
  | cons q rest ih =>
      obtain ⟨k0, v0⟩ := q
      by_cases h0 : k0 = k
      · subst h0
        rw [alookup, if_pos rfl] at h
        injection h with h
        subst h
        exact List.mem_cons_self _ _
      · rw [alookup, if_neg h0] at h
        exact List.mem_cons_of_mem _ (ih h)

theorem alookup_of_mem_nodup {α : Type} {k : String} {v : α} {l : List (String × α)}
    (hnd : (keysOf l).Nodup) (h : (k, v) ∈ l) : alookup k l = some v := by
  induction l with
  | nil => simp at h
  | cons q rest ih =>
      obtain ⟨k0, v0⟩ := q
      simp only [keysOf, List.map_cons, List.nodup_cons] at hnd
      rcases List.mem_cons.mp h with h | h
      · obtain ⟨h1, h2⟩ := Prod.mk.injEq .. ▸ h
        subst h1; subst h2
        rw [alookup, if_pos rfl]
      · have hk : k ∈ keysOf rest := List.mem_map_of_mem Prod.fst h
        have h0 : k0 ≠ k := fun e => hnd.1 (e ▸ hk)
        rw [alookup, if_neg h0]
        exact ih hnd.2 h

theorem alookup_aerase_self {α : Type} {k : String} {l : List (String × α)}
    (hnd : (keysOf l).Nodup) : alookup k (aerase k l) = none := by
  induction l with
  | nil => rfl
  | cons q rest ih =>
      obtain ⟨k0, v0⟩ := q
      simp only [keysOf, List.map_cons, List.nodup_cons] at hnd
      by_cases h0 : k0 = k
      · subst h0
        rw [aerase, if_pos rfl]
        exact alookup_eq_none_of_not_mem hnd.1
      · rw [aerase, if_neg h0, alookup, if_neg h0]
        exact ih hnd.2

theorem alookup_aerase_of_ne {α : Type} {k k' : String} (h : k' ≠ k)
    (l : List (String × α)) : alookup k' (aerase k l) = alookup k' l := by
  induction l with
  | nil => rfl
  | cons q rest ih =>
      obtain ⟨k0, v0⟩ := q
      by_cases h0 : k0 = k
      · subst h0
        rw [aerase, if_pos rfl, alookup, if_neg (Ne.symm h)]
      · rw [aerase, if_neg h0, alookup, alookup]
        split
        · rfl
        · exact ih

theorem alookup_aerase_sub {α : Type} {k k' : String} {w : α} {l : List (String × α)}
    (hnd : (keysOf l).Nodup) (h : alookup k (aerase k' l) = some w) :
    alookup k l = some w :=
  alookup_of_mem_nodup hnd ((aerase_sublist k' l).subset (mem_of_alookup h))

theorem alookup_filter_sub {α : Type} {k : String} {w : α} {l : List (String × α)}
    {p : String × α → Bool} (hnd : (keysOf l).Nodup)
    (h : alookup k (l.filter p) = some w) : alookup k l = some w :=
  alookup_of_mem_nodup hnd ((List.mem_filter.mp (mem_of_alookup h)).1)

theorem alookup_filter_eq_none {α : Type} {k : String} {v : α} {l : List (String × α)}
    {p : String × α → Bool} (hnd : (keysOf l).Nodup) (hv : alookup k l = some v)
    (hp : p (k, v) = false) : alookup k (l.filter p) = none := by
  cases hres : alookup k (l.filter p) with
  | none => rfl
  | some w =>
      have hw := List.mem_filter.mp (mem_of_alookup hres)
      have heq : some v = some w := hv ▸ alookup_of_mem_nodup hnd hw.1
      injection heq with heq
      subst heq
      rw [hp] at hw
      exact absurd hw.2 (by simp)

/-- C5: registration is last-writer-wins.  For every starting state,
identity `A` and connections `cA`, `cB`, after processing
`register(A)` from `cA` and then `register(A)` from `cB`, the presence
lookup of `A` yields `cB`; the handler is total, never rejects, and emits
no message on either registration. -/
theorem register_last_writer_wins (st : ServerState) (A cA cB : String) :
    alookup A ((step (step st cA (.register A)).1 cB (.register A)).1).users = some cB
    ∧ (step st cA (.register A)).2 = []
    ∧ (step (step st cA (.register A)).1 cB (.register A)).2 = [] := by
  refine ⟨?_, rfl, rfl⟩
  simp [step, handleRegister, alookup_upsert_self]

/-- C10: a disconnect of a socket whose identity has since been
re-registered on another connection (the directory's current entry for the
socket's role is some other connection) changes no state at all and emits
nothing: presence mapping, session table and socket fields are all left
untouched. -/
theorem stale_disconnect_noop (st : ServerState) (sid r c : String)
    (hrole : alookup sid st.socketRole = some r)
    (hcur : alookup r st.users = some c) (hne : c ≠ sid) :
    step st sid Event.disconnect = (st, []) := by
  have hguard : ¬(r ≠ "" ∧ alookup r st.users = some sid) := by
    rintro ⟨-, h2⟩
    rw [hcur] at h2
    injection h2 with h2
    exact hne h2
  simp [step, handleDisconnect, hrole, hguard]

/-- Witness for C10 at a concrete input: socket `s1` still carries role
`A`, but `A` is now registered to socket `s9`; disconnecting `s1` is a
complete no-op. -/
theorem stale_disconnect_noop_witness :
    step staleRoleState "s1" Event.disconnect = (staleRoleState, []) :=
  stale_disconnect_noop staleRoleState "s1" "A" "s9" (by decide) (by decide) (by decide)

/-- C7: when the sending connection has no active session — its
`sessionId` field is unset, or set to an id absent from the session table —
a start- or stop-recording request issues no control-plane call, emits no
recording signal to anyone, and leaves the state unchanged (a no-op apart
from the `console.warn`, which has no other effect). -/
theorem recording_without_session_noop (st : ServerState) (sid f t : String)
    (h : ∀ s, alookup sid st.socketSession = some s → alookup s st.sessions = none) :
    step st sid (.startRecordingRequest f t) = (st, [])
    ∧ step st sid (.stopRecordingRequest f t) = (st, []) := by
  cases hl : alookup sid st.socketSession with
  | none => simp [step, handleStartRecording, handleStopRecording, hl]
  | some s =>
      have hs := h s hl
      simp [step, handleStartRecording, handleStopRecording, hl, hs]

/-- Witness for C7 at a concrete input: the initiator socket of
`endedCallState` still carries the stale id `A_B_7`, which is no longer in
the table; both recording requests are complete no-ops. -/
theorem recording_without_session_noop_witness :
    step endedCallState "s1" (.startRecordingRequest "A" "B") = (endedCallState, [])
    ∧ step endedCallState "s1" (.stopRecordingRequest "A" "B") = (endedCallState, []) :=
  recording_without_session_noop endedCallState "s1" "A" "B" (fun _ _ => rfl)

/-- Counterexample to C1 as stated: `midCallState` is reachable — it is
the `runState` of the registration-and-call trace — and has `B`
registered, yet a repeated `call(A, B, ...)` processed in the same
millisecond creates no new session record: the generated id collides, the
existing record is overwritten, and the table still holds exactly one
record afterwards. -/
theorem colliding_call_creates_no_new_record :
    runState initialState
        [("s1", .register "A"), ("s2", .register "B"), ("s1", .call "A" "B" "o1" 7)]
      = midCallState
    ∧ alookup "B" midCallState.users = some "s2"
    ∧ midCallState.sessions.length = 1
    ∧ (step midCallState "s1" (.call "A" "B" "o2" 7)).1.sessions.length = 1
    ∧ (step midCallState "s1" (.call "A" "B" "o2" 7)).1.sessions
        = [("A_B_7", ⟨"A", "B", "calling"⟩)] :=
  ⟨rfl, rfl, rfl, rfl, rfl⟩

/-- C1 as amended: whenever `B` is registered, `call(A, B, offer)` emits
exactly one `incoming-call` carrying `from = A` and the offer and exactly
one `call-session-info` carrying the generated session id, both to `B`'s
connection and nothing else, stores a record with status `calling` at the
generated id, and leaves every other session id's record unchanged.  When
the generated id is not already a session key this creates exactly one new
record; when it collides with an existing session's id (a same-pair call
in the same millisecond), the existing record is overwritten in place and
the table does not grow — no new record is created. -/
theorem call_with_target_present_spec :
    (∀ st sid f t o dest now, alookup t st.users = some dest →
        alookup (sessionIdOf f t now) st.sessions = none →
        (step st sid (.call f t o now)).2 =
          [Eff.incomingCall dest f o, Eff.callSessionInfo dest (sessionIdOf f t now)]
        ∧ alookup (sessionIdOf f t now) (step st sid (.call f t o now)).1.sessions =
            some ⟨f, t, "calling"⟩
        ∧ (step st sid (.call f t o now)).1.sessions.length = st.sessions.length + 1
        ∧ ∀ k, k ≠ sessionIdOf f t now →
            alookup k (step st sid (.call f t o now)).1.sessions = alookup k st.sessions)
    ∧ (∀ st sid f t o dest now v, alookup t st.users = some dest →
        alookup (sessionIdOf f t now) st.sessions = some v →
        (step st sid (.call f t o now)).2 =
          [Eff.incomingCall dest f o, Eff.callSessionInfo dest (sessionIdOf f t now)]
        ∧ alookup (sessionIdOf f t now) (step st sid (.call f t o now)).1.sessions =
            some ⟨f, t, "calling"⟩
        ∧ (step st sid (.call f t o now)).1.sessions.length = st.sessions.length
        ∧ ∀ k, k ≠ sessionIdOf f t now →
            alookup k (step st sid (.call f t o now)).1.sessions = alookup k st.sessions) := by
  constructor
  · intro st sid f t o dest now hB hfresh
    refine ⟨?_, ?_, ?_, ?_⟩
    · simp [step, handleCall, hB]
    · simp [step, handleCall, hB, alookup_upsert_self]
    · simp [step, handleCall, hB, length_upsert_of_none hfresh]
    · intro k hk
      simp only [step, handleCall, hB]
      exact alookup_upsert_of_ne hk _ _
  · intro st sid f t o dest now v hB hcoll
    refine ⟨?_, ?_, ?_, ?_⟩
    · simp [step, handleCall, hB]
    · simp [step, handleCall, hB, alookup_upsert_self]
    · simp [step, handleCall, hB, length_upsert_of_some hcoll]
    · intro k hk
      simp only [step, handleCall, hB]
      exact alookup_upsert_of_ne hk _ _

/-- Witness for the amended C1 at concrete inputs: a call at a fresh
millisecond out of the state with both parties registered (one new
record), and the colliding repeat call out of the standard mid-call state
(overwrite, table size unchanged). -/
theorem call_with_target_present_spec_witness :
    ((step bothRegisteredState "s1" (.call "A" "B" "sdpOffer" 7)).2 =
        [Eff.incomingCall "s2" "A" "sdpOffer", Eff.callSessionInfo "s2" (sessionIdOf "A" "B" 7)]
      ∧ alookup (sessionIdOf "A" "B" 7)
          (step bothRegisteredState "s1" (.call "A" "B" "sdpOffer" 7)).1.sessions
          = some ⟨"A", "B", "calling"⟩
      ∧ (step bothRegisteredState "s1" (.call "A" "B" "sdpOffer" 7)).1.sessions.length
          = bothRegisteredState.sessions.length + 1
      ∧ ∀ k, k ≠ sessionIdOf "A" "B" 7 →
          alookup k (step bothRegisteredState "s1" (.call "A" "B" "sdpOffer" 7)).1.sessions
            = alookup k bothRegisteredState.sessions)
    ∧ ((step midCallState "s1" (.call "A" "B" "o2" 7)).2 =
        [Eff.incomingCall "s2" "A" "o2", Eff.callSessionInfo "s2" (sessionIdOf "A" "B" 7)]
      ∧ alookup (sessionIdOf "A" "B" 7)
          (step midCallState "s1" (.call "A" "B" "o2" 7)).1.sessions
          = some ⟨"A", "B", "calling"⟩
      ∧ (step midCallState "s1" (.call "A" "B" "o2" 7)).1.sessions.length
          = midCallState.sessions.length
      ∧ ∀ k, k ≠ sessionIdOf "A" "B" 7 →
          alookup k (step midCallState "s1" (.call "A" "B" "o2" 7)).1.sessions
            = alookup k midCallState.sessions) :=
  ⟨call_with_target_present_spec.1 bothRegisteredState "s1" "A" "B" "sdpOffer" "s2" 7
      (by decide) (by decide),
   call_with_target_present_spec.2 midCallState "s1" "A" "B" "o2" "s2" 7
      ⟨"A", "B", "calling"⟩ (by decide) (by decide)⟩

/-- C2, evaluated at the standard two-party flow: register `A` on `s1`,
register `B` on `s2`, `call(A, B, offer)` at millisecond 7, then
`answer(B, A, answer)` arriving on `B`'s connection `s2`.  Exactly one
`call-answered` carrying `from = B` and the answer is relayed to `A`'s
connection, but the server state is completely unchanged: the session link
was stored on the initiator's socket only, so the guard of the answer
handler fails and the session stays in status `calling` — it never becomes
`connected`, contrary to the handler's own stated purpose and to the
specified scenario. -/
theorem answer_leaves_session_calling :
    step (runState initialState
        [("s1", .register "A"), ("s2", .register "B"), ("s1", .call "A" "B" "sdpOffer" 7)])
      "s2" (.answer "B" "A" "sdpAnswer")
    = (runState initialState
        [("s1", .register "A"), ("s2", .register "B"), ("s1", .call "A" "B" "sdpOffer" 7)],
       [Eff.callAnswered "s1" "B" "sdpAnswer"])
    ∧ alookup (sessionIdOf "A" "B" 7)
        (step (runState initialState
            [("s1", .register "A"), ("s2", .register "B"), ("s1", .call "A" "B" "sdpOffer" 7)])
          "s2" (.answer "B" "A" "sdpAnswer")).1.sessions
      = some ⟨"A", "B", "calling"⟩ :=
  ⟨rfl, rfl⟩

/-- Counterexample to C3 as stated: in the standard mid-call state, an
`end-call` arriving on the *target's* connection `s2` relays `call-ended`
to `A` but deletes nothing — the session record is still present
afterwards, because the session link lives only on the initiator's
socket. -/
theorem endcall_from_target_keeps_session :
    (step midCallState "s2" (.endCall "B" "A")).2 = [Eff.callEnded "s1" "B"]
    ∧ alookup "A_B_7" (step midCallState "s2" (.endCall "B" "A")).1.sessions
        = some ⟨"A", "B", "calling"⟩
    ∧ alookup "A_B_7" midCallState.sessions = some ⟨"A", "B", "calling"⟩ :=
  ⟨rfl, rfl, rfl⟩

/-- C3 as amended: (a) an `end-call` from the connection that carries the
session link removes the session, provided the event's target is
registered; (b) a disconnect of a party's connection removes every session
naming that party, provided the connection is still the current, non-empty
registration of that identity; (c) once a session id is absent from the
table, an `answer` from a connection still carrying that id changes no
state — no status transition — and emits at most the best-effort
`call-answered` relay; (d) a recording request from such a connection is a
complete no-op: no control-plane call, no recording signal, no state
change. -/
theorem session_removal_and_stale_noop :
    (∀ st sid f t dest s, (keysOf st.sessions).Nodup →
        alookup t st.users = some dest →
        alookup sid st.socketSession = some s →
        (alookup s st.sessions).isSome = true →
        alookup s (step st sid (.endCall f t)).1.sessions = none)
    ∧ (∀ st sid r k sess, (keysOf st.sessions).Nodup →
        alookup sid st.socketRole = some r → r ≠ "" →
        alookup r st.users = some sid →
        alookup k st.sessions = some sess →
        (sess.fromId = r ∨ sess.toId = r) →
        alookup k (step st sid Event.disconnect).1.sessions = none)
    ∧ (∀ st sid f t a s, alookup sid st.socketSession = some s →
        alookup s st.sessions = none →
        (step st sid (.answer f t a)).1 = st
        ∧ ((step st sid (.answer f t a)).2 = []
            ∨ ∃ d, (step st sid (.answer f t a)).2 = [Eff.callAnswered d f a]))
    ∧ (∀ st sid f t s, alookup sid st.socketSession = some s →
        alookup s st.sessions = none →
        step st sid (.startRecordingRequest f t) = (st, [])
        ∧ step st sid (.stopRecordingRequest f t) = (st, [])) := by
  refine ⟨?_, ?_, ?_, ?_⟩
  · intro st sid f t dest s hnd hB hlink hs
    simp [step, handleEndCall, hB, hlink, hs, alookup_aerase_self hnd]
  · intro st sid r k sess hnd hrole hr hcur hsess hmatch
    simp only [step, handleDisconnect, hrole]
    rw [if_pos ⟨hr, hcur⟩]
    refine alookup_filter_eq_none hnd hsess ?_
    rcases hmatch with h | h <;> simp [h]
  · intro st sid f t a s hlink hgone
    cases hB : alookup t st.users with
    | none =>
        exact ⟨by simp [step, handleAnswer, hB], Or.inl (by simp [step, handleAnswer, hB])⟩
    | some d =>
        refine ⟨?_, Or.inr ⟨d, by simp [step, handleAnswer, hB, hlink, hgone]⟩⟩
        simp [step, handleAnswer, hB, hlink, hgone]
  · intro st sid f t s hlink hgone
    simp [step, handleStartRecording, handleStopRecording, hlink, hgone]

/-- Witness for the amended C3 at concrete inputs: in the standard
mid-call state, an `end-call` from the initiator socket `s1` removes the
session, a disconnect of the target socket `s2` removes it, and against the
ended-call state an `answer` or recording request carrying the stale id
`A_B_7` is a no-op as described. -/
theorem session_removal_and_stale_noop_witness :
    alookup "A_B_7" (step midCallState "s1" (.endCall "A" "B")).1.sessions = none
    ∧ alookup "A_B_7" (step midCallState "s2" Event.disconnect).1.sessions = none
    ∧ ((step endedCallState "s1" (.answer "A" "B" "x")).1 = endedCallState
        ∧ ((step endedCallState "s1" (.answer "A" "B" "x")).2 = []
            ∨ ∃ d, (step endedCallState "s1" (.answer "A" "B" "x")).2
                = [Eff.callAnswered d "A" "x"]))
    ∧ (step endedCallState "s1" (.startRecordingRequest "A" "B") = (endedCallState, [])
        ∧ step endedCallState "s1" (.stopRecordingRequest "A" "B") = (endedCallState, [])) :=
  ⟨session_removal_and_stale_noop.1 midCallState "s1" "A" "B" "s2" "A_B_7"
      (by decide) (by decide) (by decide) (by decide),
   session_removal_and_stale_noop.2.1 midCallState "s2" "B" "A_B_7" ⟨"A", "B", "calling"⟩
      (by decide) (by decide) (by decide) (by decide) (by decide) (by decide),
   session_removal_and_stale_noop.2.2.1 endedCallState "s1" "A" "B" "x" "A_B_7"
      (by decide) (by decide),
   session_removal_and_stale_noop.2.2.2 endedCallState "s1" "A" "B" "A_B_7"
      (by decide) (by decide)⟩

/-- Counterexample to C4 as stated: in the standard mid-call state, the
second of two consecutive `end-call` events from the initiator still emits
a further `call-ended` to the target's connection, so two events do not
have the same outbound messages as one — the second event is not a
message-level no-op. -/
theorem double_endcall_emits_twice :
    (step (step midCallState "s1" (.endCall "A" "B")).1 "s1" (.endCall "A" "B")).2
      = [Eff.callEnded "s2" "A"]
    ∧ (step (step midCallState "s1" (.endCall "A" "B")).1 "s1" (.endCall "A" "B")).2
      ≠ ([] : List Eff) :=
  ⟨rfl, by decide⟩

/-- C4 as amended: `end-call` is idempotent on the server *state* — the
second of two consecutive `end-call` events from the same connection for
the same pair leaves the state exactly as the first left it — and the
second event repeats the same outbound relay as the first (one more
`call-ended` to the target when the target is registered, nothing
otherwise). -/
theorem endcall_state_idempotent (st : ServerState) (sid f t : String)
    (hnd : (keysOf st.sessions).Nodup) :
    (step (step st sid (.endCall f t)).1 sid (.endCall f t)).1
      = (step st sid (.endCall f t)).1
    ∧ (step (step st sid (.endCall f t)).1 sid (.endCall f t)).2
      = (step st sid (.endCall f t)).2 := by
  cases hB : alookup t st.users with
  | none => simp [step, handleEndCall, hB]
  | some dest =>
      cases hlink : alookup sid st.socketSession with
      | none => simp [step, handleEndCall, hB, hlink]
      | some s =>
          cases hs : (alookup s st.sessions).isSome with
          | false => simp [step, handleEndCall, hB, hlink, hs]
          | true =>
              have hgone : alookup s (aerase s st.sessions) = none :=
                alookup_aerase_self hnd
              simp [step, handleEndCall, hB, hlink, hs, hgone]

/-- Witness for the amended C4 at a concrete input: two consecutive
`end-call` events from the initiator socket of the standard mid-call
state. -/
theorem endcall_state_idempotent_witness :
    (step (step midCallState "s1" (.endCall "A" "B")).1 "s1" (.endCall "A" "B")).1
      = (step midCallState "s1" (.endCall "A" "B")).1
    ∧ (step (step midCallState "s1" (.endCall "A" "B")).1 "s1" (.endCall "A" "B")).2
      = (step midCallState "s1" (.endCall "A" "B")).2 :=
  endcall_state_idempotent midCallState "s1" "A" "B" (by decide)

/-- C6, evaluated at the failing input: two `call(A, B, ...)` events
processed at the same `Date.now()` millisecond 7 generate the identical
session id, so the second call overwrites the first record instead of
creating a new one — the table holds one record after the first call and
still only one after the second, contradicting uniqueness of allocated
session ids within the process lifetime. -/
theorem same_ms_call_overwrites_session :
    sessionIdOf "A" "B" 7 = sessionIdOf "A" "B" 7
    ∧ (runState initialState
        [("s2", .register "B"), ("s1", .call "A" "B" "o1" 7)]).sessions.length = 1
    ∧ (runState initialState
        [("s2", .register "B"), ("s1", .call "A" "B" "o1" 7),
         ("s1", .call "A" "B" "o2" 7)]).sessions.length = 1
    ∧ (runState initialState
        [("s2", .register "B"), ("s1", .call "A" "B" "o1" 7),
         ("s1", .call "A" "B" "o2" 7)]).sessions
      = [("A_B_7", ⟨"A", "B", "calling"⟩)] :=
  ⟨rfl, rfl, rfl, rfl⟩

theorem status_step_frame {st : ServerState} {sid : String} {ev : Event} {k : String}
    {s s' : CallSession}
    (h : alookup k (step st sid ev).1.sessions = alookup k st.sessions)
    (hbefore : alookup k st.sessions = some s)
    (hafter : alookup k (step st sid ev).1.sessions = some s') : s' = s := by
  rw [h, hbefore] at hafter
  injection hafter with h'
  exact h'.symm

/-- Counterexample to C8 as stated: after the initiator itself answers
(the only way the source ever reaches status `connected`), a repeated
`call(A, B, ...)` at the same millisecond reuses the existing session id
and replaces the `connected` record with a fresh `calling` one — the
status at that session id moves backward. -/
theorem colliding_call_resets_status :
    alookup "A_B_7" (runState initialState
        [("s1", .register "A"), ("s2", .register "B"),
         ("s1", .call "A" "B" "o1" 7), ("s1", .answer "A" "B" "x")]).sessions
      = some ⟨"A", "B", "connected"⟩
    ∧ alookup "A_B_7" (runState initialState
        [("s1", .register "A"), ("s2", .register "B"),
         ("s1", .call "A" "B" "o1" 7), ("s1", .answer "A" "B" "x"),
         ("s1", .call "A" "B" "o2" 7)]).sessions
      = some ⟨"A", "B", "calling"⟩ :=
  ⟨rfl, rfl⟩

/-- C8 as amended: (1) every handler writes only the statuses `calling`
and `connected`, so validity of all stored statuses is preserved by every
event — the terminal transition is deletion of the record, never an
in-place `ended` mark; (2) at any fixed session id, provided the table's
keys are duplicate-free and a `call` event does not allocate exactly that
id (the timestamp-collision case excluded), a surviving record is either
unchanged or moves from `calling` to `connected` — never backward and
never to any other value. -/
theorem session_status_machine :
    (∀ st sid ev, StatusesValid st.sessions → StatusesValid (step st sid ev).1.sessions)
    ∧ (∀ st sid ev k s s', (keysOf st.sessions).Nodup →
        (s.status = "calling" ∨ s.status = "connected") →
        (∀ f t o now, ev = Event.call f t o now → sessionIdOf f t now ≠ k) →
        alookup k st.sessions = some s →
        alookup k (step st sid ev).1.sessions = some s' →
        s' = s ∨ (s.status = "calling" ∧ s' = { s with status := "connected" })) := by
  constructor
  · intro st sid ev hval
    cases ev with
    | register role => simpa [step, handleRegister] using hval
    | call f t o now =>
        cases hB : alookup t st.users with
        | none => simpa [step, handleCall, hB] using hval
        | some dest =>
            simp only [step, handleCall, hB]
            intro p hp
            rcases mem_upsert hp with h | h
            · subst h
              exact Or.inl rfl
            · exact hval p h
    | answer f t a =>
        cases hB : alookup t st.users with
        | none => simpa [step, handleAnswer, hB] using hval
        | some dest =>
            cases hlink : alookup sid st.socketSession with
            | none => simpa [step, handleAnswer, hB, hlink] using hval
            | some s0 =>
                cases hs : alookup s0 st.sessions with
                | none => simpa [step, handleAnswer, hB, hlink, hs] using hval
                | some sess =>
                    simp only [step, handleAnswer, hB, hlink, hs]
                    intro p hp
                    rcases mem_upsert hp with h | h
                    · subst h
                      exact Or.inr rfl
                    · exact hval p h
    | iceCandidate f t c =>
        cases hB : alookup t st.users with
        | none => simpa [step, handleIceCandidate, hB] using hval
        | some dest => simpa [step, handleIceCandidate, hB] using hval
    | endCall f t =>
        cases hB : alookup t st.users with
        | none => simpa [step, handleEndCall, hB] using hval
        | some dest =>
            cases hlink : alookup sid st.socketSession with
            | none => simpa [step, handleEndCall, hB, hlink] using hval
            | some s0 =>
                cases hs : (alookup s0 st.sessions).isSome with
                | false => simpa [step, handleEndCall, hB, hlink, hs] using hval
                | true =>
                    simp only [step, handleEndCall, hB, hlink, hs, if_true]
                    intro p hp
                    exact hval p ((aerase_sublist s0 st.sessions).subset hp)
    | startRecordingRequest f t =>
        cases hlink : alookup sid st.socketSession with
        | none => simpa [step, handleStartRecording, hlink] using hval
        | some s0 =>
            cases hs : (alookup s0 st.sessions).isSome with
            | false => simpa [step, handleStartRecording, hlink, hs] using hval
            | true => simpa [step, handleStartRecording, hlink, hs] using hval
    | stopRecordingRequest f t =>
        cases hlink : alookup sid st.socketSession with
        | none => simpa [step, handleStopRecording, hlink] using hval
        | some s0 =>
            cases hs : (alookup s0 st.sessions).isSome with
            | false => simpa [step, handleStopRecording, hlink, hs] using hval
            | true => simpa [step, handleStopRecording, hlink, hs] using hval
    | disconnect =>
        cases hrole : alookup sid st.socketRole with
        | none => simpa [step, handleDisconnect, hrole] using hval
        | some r =>
            by_cases hg : r ≠ "" ∧ alookup r st.users = some sid
            · simp only [step, handleDisconnect, hrole, if_pos hg]
              intro p hp
              exact hval p (List.mem_filter.mp hp).1
            · simpa [step, handleDisconnect, hrole, if_neg hg] using hval
  · intro st sid ev k s s' hnd hstat hfresh hbefore hafter
    cases ev with
    | register role =>
        exact Or.inl (status_step_frame (by simp [step, handleRegister]) hbefore hafter)
    | call f t o now =>
        have hne : sessionIdOf f t now ≠ k := hfresh f t o now rfl
        cases hB : alookup t st.users with
        | none =>
            exact Or.inl (status_step_frame (by simp [step, handleCall, hB]) hbefore hafter)
        | some dest =>
            refine Or.inl (status_step_frame ?_ hbefore hafter)
            simp only [step, handleCall, hB]
            exact alookup_upsert_of_ne (Ne.symm hne) _ _
    | answer f t a =>
        cases hB : alookup t st.users with
        | none =>
            exact Or.inl (status_step_frame (by simp [step, handleAnswer, hB]) hbefore hafter)
        | some dest =>
            cases hlink : alookup sid st.socketSession with
            | none =>
                exact Or.inl
                  (status_step_frame (by simp [step, handleAnswer, hB, hlink]) hbefore hafter)
            | some s0 =>
                cases hs : alookup s0 st.sessions with
                | none =>
                    exact Or.inl
                      (status_step_frame (by simp [step, handleAnswer, hB, hlink, hs])
                        hbefore hafter)
                | some sess =>
                    by_cases hk : k = s0
                    · subst hk
                      have hsess : sess = s := by
                        rw [hbefore] at hs
                        injection hs with h'
                        exact h'.symm
                      subst hsess
                      have h2 : (step st sid (.answer f t a)).1.sessions
                          = upsert k { sess with status := "connected" } st.sessions := by
                        simp only [step, handleAnswer, hB, hlink, hs]
                      rw [h2, alookup_upsert_self] at hafter
                      injection hafter with h3
                      rcases hstat with hc | hc
                      · exact Or.inr ⟨hc, h3.symm⟩
                      · refine Or.inl ?_
                        rw [← h3, ← hc]
                    · refine Or.inl (status_step_frame ?_ hbefore hafter)
                      simp only [step, handleAnswer, hB, hlink, hs]
                      exact alookup_upsert_of_ne hk _ _
    | iceCandidate f t c =>
        refine Or.inl (status_step_frame ?_ hbefore hafter)
        cases hB : alookup t st.users <;> simp [step, handleIceCandidate, hB]
    | endCall f t =>
        cases hB : alookup t st.users with
        | none =>
            exact Or.inl (status_step_frame (by simp [step, handleEndCall, hB]) hbefore hafter)
        | some dest =>
            cases hlink : alookup sid st.socketSession with
            | none =>
                exact Or.inl
                  (status_step_frame (by simp [step, handleEndCall, hB, hlink]) hbefore hafter)
            | some s0 =>
                cases hs : (alookup s0 st.sessions).isSome with
                | false =>
                    exact Or.inl
                      (status_step_frame (by simp [step, handleEndCall, hB, hlink, hs])
                        hbefore hafter)
                | true =>
                    refine Or.inl ?_
                    have h2 : (step st sid (.endCall f t)).1.sessions
                        = aerase s0 st.sessions := by
                      simp only [step, handleEndCall, hB, hlink, hs, if_true]
                    rw [h2] at hafter
                    have h3 := alookup_aerase_sub hnd hafter
                    rw [hbefore] at h3
                    injection h3 with h3
                    exact h3.symm
    | startRecordingRequest f t =>
        refine Or.inl (status_step_frame ?_ hbefore hafter)
        cases hlink : alookup sid st.socketSession with
        | none => simp [step, handleStartRecording, hlink]
        | some s0 =>
            cases hs : (alookup s0 st.sessions).isSome <;>
              simp [step, handleStartRecording, hlink, hs]
    | stopRecordingRequest f t =>
        refine Or.inl (status_step_frame ?_ hbefore hafter)
        cases hlink : alookup sid st.socketSession with
        | none => simp [step, handleStopRecording, hlink]
        | some s0 =>
            cases hs : (alookup s0 st.sessions).isSome <;>
              simp [step, handleStopRecording, hlink, hs]
    | disconnect =>
        cases hrole : alookup sid st.socketRole with
        | none =>
            exact Or.inl
              (status_step_frame (by simp [step, handleDisconnect, hrole]) hbefore hafter)
        | some r =>
            by_cases hg : r ≠ "" ∧ alookup r st.users = some sid
            · refine Or.inl ?_
              have h2 := hafter
              rw [show (step st sid Event.disconnect).1.sessions
                  = st.sessions.filter (fun p => !(p.2.fromId == r || p.2.toId == r)) from by
                simp only [step, handleDisconnect, hrole, if_pos hg]] at h2
              have h3 := alookup_filter_sub hnd h2
              rw [hbefore] at h3
              injection h3 with h3
              exact h3.symm
            · exact Or.inl
                (status_step_frame (by simp [step, handleDisconnect, hrole, if_neg hg])
                  hbefore hafter)

/-- Witness for the amended C8 at concrete inputs: one step of the
initiator's own answer out of the standard mid-call state preserves status
validity, and at session id `A_B_7` that step moves the record from
`calling` exactly to `connected`. -/
theorem session_status_machine_witness :
    StatusesValid (step midCallState "s1" (.answer "A" "B" "x")).1.sessions
    ∧ ((⟨"A", "B", "connected"⟩ : CallSession) = ⟨"A", "B", "calling"⟩
        ∨ ((⟨"A", "B", "calling"⟩ : CallSession).status = "calling"
            ∧ (⟨"A", "B", "connected"⟩ : CallSession)
              = { (⟨"A", "B", "calling"⟩ : CallSession) with status := "connected" })) :=
  ⟨session_status_machine.1 midCallState "s1" (.answer "A" "B" "x")
      (by unfold StatusesValid; decide),
   session_status_machine.2 midCallState "s1" (.answer "A" "B" "x") "A_B_7"
     ⟨"A", "B", "calling"⟩ ⟨"A", "B", "connected"⟩ (by decide) (by decide)
     (fun _ _ _ _ h => nomatch h) (by decide) (by decide)⟩

/-- C9: the `call` handler links the new session id to the initiating
connection only — the link table is unchanged at every other connection,
while the initiator's entry becomes the new id — and any connection
carrying no session link resolves no session: an `answer` from it changes
no state, an `end-call` from it deletes nothing, and both recording
requests from it are rejected as having no active session (no signal, no
control-plane call, no state change), even while the session itself
exists in the table. -/
theorem target_connection_never_linked :
    (∀ st sid f t o now other, other ≠ sid →
        alookup other (step st sid (.call f t o now)).1.socketSession
          = alookup other st.socketSession)
    ∧ (∀ st sid f t o now dest, alookup t st.users = some dest →
        alookup sid (step st sid (.call f t o now)).1.socketSession
          = some (sessionIdOf f t now))
    ∧ (∀ st sid f t a, alookup sid st.socketSession = none →
        (step st sid (.answer f t a)).1 = st)
    ∧ (∀ st sid f t, alookup sid st.socketSession = none →
        (step st sid (.endCall f t)).1 = st)
    ∧ (∀ st sid f t, alookup sid st.socketSession = none →
        step st sid (.startRecordingRequest f t) = (st, [])
        ∧ step st sid (.stopRecordingRequest f t) = (st, [])) := by
  refine ⟨?_, ?_, ?_, ?_, ?_⟩
  · intro st sid f t o now other hne
    cases hB : alookup t st.users with
    | none => simp [step, handleCall, hB]
    | some dest =>
        simp only [step, handleCall, hB]
        exact alookup_upsert_of_ne hne _ _
  · intro st sid f t o now dest hB
    simp [step, handleCall, hB, alookup_upsert_self]
  · intro st sid f t a hnone
    cases hB : alookup t st.users with
    | none => simp [step, handleAnswer, hB]
    | some dest => simp [step, handleAnswer, hB, hnone]
  · intro st sid f t hnone
    cases hB : alookup t st.users with
    | none => simp [step, handleEndCall, hB]
    | some dest => simp [step, handleEndCall, hB, hnone]
  · intro st sid f t hnone
    simp [step, handleStartRecording, handleStopRecording, hnone]

/-- Witness for C9 at concrete inputs: the call that builds the standard
mid-call state leaves the target socket `s2` unlinked and links the caller
socket `s1`; and from the mid-call state — where the session exists —
`answer`, `end-call` and both recording requests arriving on the unlinked
target socket `s2` resolve no session. -/
theorem target_connection_never_linked_witness :
    alookup "s2" (step
        (ServerState.mk [("A", "s1"), ("B", "s2")] [] [("s1", "A"), ("s2", "B")] [])
        "s1" (.call "A" "B" "sdpOffer" 7)).1.socketSession =
      alookup "s2"
        (ServerState.mk [("A", "s1"), ("B", "s2")] [] [("s1", "A"), ("s2", "B")] []).socketSession
    ∧ alookup "s1" (step
        (ServerState.mk [("A", "s1"), ("B", "s2")] [] [("s1", "A"), ("s2", "B")] [])
        "s1" (.call "A" "B" "sdpOffer" 7)).1.socketSession = some (sessionIdOf "A" "B" 7)
    ∧ (step midCallState "s2" (.answer "B" "A" "x")).1 = midCallState
    ∧ (step midCallState "s2" (.endCall "B" "A")).1 = midCallState
    ∧ (step midCallState "s2" (.startRecordingRequest "B" "A") = (midCallState, [])
        ∧ step midCallState "s2" (.stopRecordingRequest "B" "A") = (midCallState, [])) :=
  ⟨target_connection_never_linked.1
      (ServerState.mk [("A", "s1"), ("B", "s2")] [] [("s1", "A"), ("s2", "B")] [])
      "s1" "A" "B" "sdpOffer" 7 "s2" (by decide),
   target_connection_never_linked.2.1
      (ServerState.mk [("A", "s1"), ("B", "s2")] [] [("s1", "A"), ("s2", "B")] [])
      "s1" "A" "B" "sdpOffer" 7 "s2" (by decide),
   target_connection_never_linked.2.2.1 midCallState "s2" "B" "A" "x" (by decide),
   target_connection_never_linked.2.2.2.1 midCallState "s2" "B" "A" (by decide),
   target_connection_never_linked.2.2.2.2 midCallState "s2" "B" "A" (by decide)⟩

end Signaling
